import Mathlib

/-!
Verification development for the English Reader web front end
(english-reader-web).  The definitions below are a shallow embedding of
the pointer-resolution and request-cache layer of the application:

* `lib/aiConfig.ts` — persisted AI configuration and the effective
  configuration object sent with every backend request;
* `app/page.tsx` — the interaction handlers `handleTokenClick`,
  `handleRawTextClick`, `handleMouseUp`, the global double-click
  dismissal, and the two result caches plus the in-flight set;
* `components/WordPopup.tsx` / `components/TranslationPopup.tsx` —
  popup geometry (viewport clamping);
* `hooks/useDraggable.ts` / `hooks/useResizable.ts` — drag and resize
  updates of the translation popup layout.

JavaScript `Map`/`Set` state is modelled with association lists and
lists of keys; the asynchronous fetches are split into a synchronous
start (everything up to the `await`) and a completion step (the code
that runs when the response or the error arrives), so interleavings of
several in-flight lookups can be expressed.  Pixel coordinates are
modelled as integers.
-/

namespace EnglishReader

/-! ### AI configuration (`lib/aiConfig.ts`) -/

/-- The configuration object persisted in browser local storage
(interface `AIConfig` in `lib/aiConfig.ts`).  `use_proxy` is a boolean;
all other fields are strings. -/
structure AIConfig where
  provider : String
  api_key : String
  base_url : String
  model_name : String
  gemini_api_key : String
  gemini_model_name : String
  use_proxy : Bool
  http_proxy : String
  https_proxy : String
deriving DecidableEq, Repr

/-- `hasAIConfig` from `lib/aiConfig.ts`: for the gemini provider the
gemini key must be non-empty, otherwise key, base url and model name
must all be non-empty (JavaScript string truthiness). -/
def hasAIConfig (c : AIConfig) : Bool :=
  if c.provider = "gemini" then c.gemini_api_key != ""
  else c.api_key != "" && c.base_url != "" && c.model_name != ""

/-- The effective configuration object returned by `getAIConfigForAPI`
and spread into every explain / translate request body: either the
empty object (use the backend default), an OpenAI-compatible
configuration, or a Gemini configuration. -/
inductive APIConfig where
  | empty : APIConfig
  | openaiCompat (provider apiKey baseUrl modelName : String) : APIConfig
  | gemini (apiKey modelName : String) : APIConfig
deriving DecidableEq, Repr

/-- `getAIConfigForAPI` from `lib/aiConfig.ts`: no usable configuration
yields the empty object; provider `"gemini"` yields the gemini shape;
any other provider yields the OpenAI-compatible shape. -/
def getAIConfigForAPI (c : AIConfig) : APIConfig :=
  if hasAIConfig c = false then .empty
  else if c.provider = "gemini" then .gemini c.gemini_api_key c.gemini_model_name
  else .openaiCompat c.provider c.api_key c.base_url c.model_name

/-! ### JSON serialization of the effective configuration

The cache keys in `app/page.tsx` embed `JSON.stringify(aiConfig)`.
`JSON.stringify` writes the object fields in insertion order and
escapes `"` and `\` inside string values with a backslash (it also
escapes control characters, which are modelled as copied unchanged —
the escaping below is still injective, which is all the development
uses). -/

/-- JSON string-value escaping: a quote or backslash is preceded by a
backslash, every other character is copied. -/
def jsonEsc : List Char → List Char
  | [] => []
  | c :: cs => if c = '"' ∨ c = '\\' then '\\' :: c :: jsonEsc cs else c :: jsonEsc cs

/-- Characters of `JSON.stringify({})`. -/
def emptyConfigChars : List Char := ("\x7b\x7d").data

/-- Leading characters of the OpenAI-compatible shape, up to the opening
quote of the provider value. -/
def openaiLead : List Char := ("\x7b\"ai_provider\":\"").data

/-- Characters between the provider value and the api-key value. -/
def openaiSep1 : List Char := (",\"ai_api_key\":\"").data

/-- Characters between the api-key value and the base-url value. -/
def openaiSep2 : List Char := (",\"ai_base_url\":\"").data

/-- Characters between the base-url value and the model-name value. -/
def openaiSep3 : List Char := (",\"ai_model_name\":\"").data

/-- Leading characters of the gemini shape, up to the opening quote of
the gemini api-key value (the provider value is the literal
`"gemini"`). -/
def geminiLead : List Char := ("\x7b\"ai_provider\":\"gemini\",\"gemini_api_key\":\"").data

/-- Characters between the gemini api-key value and the gemini
model-name value. -/
def geminiSep : List Char := (",\"gemini_model_name\":\"").data

/-- Closing brace. -/
def closeChars : List Char := ['\x7d']

/-- Characters of `JSON.stringify` applied to the effective
configuration object, field values escaped. -/
def serAPIConfig : APIConfig → List Char
  | .empty => emptyConfigChars
  | .openaiCompat p k u m =>
      openaiLead ++ (jsonEsc p.data ++ '"' ::
        (openaiSep1 ++ (jsonEsc k.data ++ '"' ::
          (openaiSep2 ++ (jsonEsc u.data ++ '"' ::
            (openaiSep3 ++ (jsonEsc m.data ++ '"' :: closeChars)))))))
  | .gemini k m =>
      geminiLead ++ (jsonEsc k.data ++ '"' ::
        (geminiSep ++ (jsonEsc m.data ++ '"' :: closeChars)))

/-- `JSON.stringify(aiConfig)` as a string. -/
def jsonStringifyConfig (cfg : APIConfig) : String := String.mk (serAPIConfig cfg)

/-- Cache key of `handleTokenClick` in `app/page.tsx`:
`` `${token.text}:${sentenceText}:${JSON.stringify(aiConfig)}` ``. -/
def explainCacheKey (word sentenceText : String) (cfg : APIConfig) : String :=
  word ++ ":" ++ sentenceText ++ ":" ++ jsonStringifyConfig cfg

/-- Cache key of `handleMouseUp` in `app/page.tsx`:
`` `translate:${text}:${JSON.stringify(aiConfig)}` ``. -/
def translateCacheKey (text : String) (cfg : APIConfig) : String :=
  "translate:" ++ text ++ ":" ++ jsonStringifyConfig cfg

/-! ### Application state (`app/page.tsx`) -/

/-- A clickable token (type `Token` in `app/page.tsx`).  The optional
`bbox` of the source is omitted: it is never read by the interaction
handlers modelled here (the PDF overlay reads it only for rendering). -/
structure Token where
  token_id : String
  text : String
  has_space_after : Bool
deriving DecidableEq, Repr

/-- The gloss returned by `POST /explain-token` (type `ExplainResult`
in `app/page.tsx`).  `confidence` is a float in the source used only
for display; the handlers never compute with it, so it is modelled as
an opaque integer percentage. -/
structure ExplainResult where
  word : String
  meaning_zh : String
  explanation_zh : String
  confidence : Int
deriving DecidableEq, Repr

/-- State of the word-explanation popup (`wordPopup` in
`app/page.tsx`): click coordinates plus the response data, `none` while
the request is pending. -/
structure WordPopupState where
  x : Int
  y : Int
  data : Option ExplainResult
deriving DecidableEq, Repr

/-- State of the sentence-translation popup (`selectionPopup` in
`app/page.tsx`). -/
structure SelectionPopupState where
  x : Int
  y : Int
  text : String
  translation : String
deriving DecidableEq, Repr

/-- Update of a JavaScript `Map` (`map.set k v`): association-list
update keeping one entry per key. -/
def mapSet (k : String) {α : Type} (v : α) (m : List (String × α)) : List (String × α) :=
  (k, v) :: m.filter (fun e => e.1 != k)

/-- Insertion into a JavaScript `Set` (`set.add k`). -/
def setAdd (k : String) (s : List String) : List String :=
  if k ∈ s then s else k :: s

/-- Deletion from a JavaScript `Set` (`set.delete k`). -/
def setDelete (k : String) (s : List String) : List String :=
  s.filter (fun e => e != k)

/-- The mutable state touched by the modelled handlers: the two result
caches, the shared in-flight set (`pendingRequests`), and the two popup
slots. -/
structure AppState where
  explainCache : List (String × ExplainResult)
  translateCache : List (String × String)
  pendingRequests : List String
  wordPopup : Option WordPopupState
  selectionPopup : Option SelectionPopupState
deriving DecidableEq, Repr

/-- Outcome of the explain fetch: a parsed response body, or a rejected
promise (network failure / invalid JSON). -/
inductive FetchOutcome where
  | success (data : ExplainResult) : FetchOutcome
  | failure : FetchOutcome
deriving DecidableEq, Repr

/-- Outcome of the translate fetch: a `translation_zh` string, or a
rejection carrying `err.message`. -/
inductive TranslateOutcome where
  | success (translation_zh : String) : TranslateOutcome
  | failure (errMessage : String) : TranslateOutcome
deriving DecidableEq, Repr

/-! ### Interaction handlers (`app/page.tsx`)

Each asynchronous handler is split at its `await`: a `...Start`
function covers everything executed synchronously (mutual exclusion,
cache lookup, in-flight dedup, issuing the fetch), returning the new
state together with `some key` when a backend call was issued, and a
`...Complete` function covers the continuation that runs when the
response or error arrives.  The composed function models an invocation
whose response arrives with no other event in between, and returns the
number of backend calls issued (0 or 1). -/

/-- Synchronous part of `handleTokenClick`: close the translation popup
(mutual exclusion), then serve the cache, or bail out on an in-flight
key, or mark the key in flight, open the pending word popup and issue
the fetch. -/
def tokenClickStart (tok : Token) (sentenceText : String) (evX evY : Int)
    (cfg : APIConfig) (s : AppState) : AppState × Option String :=
  let s1 := { s with selectionPopup := none }
  let key := explainCacheKey tok.text sentenceText cfg
  match s1.explainCache.lookup key with
  | some data => ({ s1 with wordPopup := some ⟨evX, evY, some data⟩ }, none)
  | none =>
    if key ∈ s1.pendingRequests then (s1, none)
    else ({ s1 with pendingRequests := setAdd key s1.pendingRequests,
                    wordPopup := some ⟨evX, evY, none⟩ }, some key)

/-- Continuation of the explain fetch in `handleTokenClick`: on success
the response is stored in the cache and the word popup is set to the
response at the originating click coordinates; on failure the word
popup is closed; the `finally` block removes the key from the in-flight
set in both cases. -/
def explainComplete (key : String) (evX evY : Int) (outcome : FetchOutcome)
    (s : AppState) : AppState :=
  match outcome with
  | .success data =>
      { s with explainCache := mapSet key data s.explainCache,
               wordPopup := some ⟨evX, evY, some data⟩,
               pendingRequests := setDelete key s.pendingRequests }
  | .failure =>
      { s with wordPopup := none,
               pendingRequests := setDelete key s.pendingRequests }

/-- `handleTokenClick` as one step: the synchronous part followed, when
a fetch was issued, by its completion.  The second component counts the
backend calls issued. -/
def handleTokenClick (tok : Token) (sentenceText : String) (evX evY : Int)
    (cfg : APIConfig) (outcome : FetchOutcome) (s : AppState) : AppState × Nat :=
  let r := tokenClickStart tok sentenceText evX evY cfg s
  match r.2 with
  | none => (r.1, 0)
  | some key => (explainComplete key evX evY outcome r.1, 1)

/-- The literal placeholder shown while a translation is pending. -/
def pendingTranslationText : String := "翻译中..."

/-- JavaScript `String.prototype.trim`: strip leading and trailing
whitespace. -/
def jsTrim (s : String) : String :=
  String.mk (((s.data.dropWhile Char.isWhitespace).reverse.dropWhile Char.isWhitespace).reverse)

/-- The guard `/[a-zA-Z]/.test(text)` of `handleMouseUp`. -/
def containsAsciiLetter (s : String) : Bool :=
  s.data.any (fun c => ('a' ≤ c && c ≤ 'z') || ('A' ≤ c && c ≤ 'Z'))

/-- Synchronous part of `handleMouseUp`: `selection` is the current
text selection (`none` when there is no selection or it is collapsed),
`x`/`y` the anchor computed from the selection rectangle.  Guards run
first; only past them is the word popup closed (mutual exclusion),
after which the cache / in-flight / fetch protocol mirrors the explain
path. -/
def mouseUpStart (selection : Option String) (x y : Int) (cfg : APIConfig)
    (s : AppState) : AppState × Option String :=
  match selection with
  | none => (s, none)
  | some raw =>
    let text := jsTrim raw
    if text.length < 2 ∨ containsAsciiLetter text = false then (s, none)
    else
      let s1 := { s with wordPopup := none }
      let key := translateCacheKey text cfg
      match s1.translateCache.lookup key with
      | some tr => ({ s1 with selectionPopup := some ⟨x, y, text, tr⟩ }, none)
      | none =>
        if key ∈ s1.pendingRequests then (s1, none)
        else ({ s1 with pendingRequests := setAdd key s1.pendingRequests,
                        selectionPopup := some ⟨x, y, text, pendingTranslationText⟩ },
              some key)

/-- Continuation of the translate fetch in `handleMouseUp`: on success
the translation is stored in the cache and spliced into whatever
translation popup is currently open (`setSelectionPopup(prev => ...)`);
on failure the failure message replaces the translation of the popup if
one is open; the `finally` block removes the key from the in-flight set
in both cases. -/
def translateComplete (key : String) (outcome : TranslateOutcome)
    (s : AppState) : AppState :=
  match outcome with
  | .success tr =>
      { s with translateCache := mapSet key tr s.translateCache,
               selectionPopup := s.selectionPopup.map (fun p => { p with translation := tr }),
               pendingRequests := setDelete key s.pendingRequests }
  | .failure msg =>
      { s with selectionPopup :=
                 s.selectionPopup.map (fun p => { p with translation := "翻译失败: " ++ msg }),
               pendingRequests := setDelete key s.pendingRequests }

/-- `handleMouseUp` as one step: the synchronous part followed, when a
fetch was issued, by its completion. -/
def handleMouseUp (selection : Option String) (x y : Int) (cfg : APIConfig)
    (outcome : TranslateOutcome) (s : AppState) : AppState × Nat :=
  let r := mouseUpStart selection x y cfg s
  match r.2 with
  | none => (r.1, 0)
  | some key => (translateComplete key outcome r.1, 1)

/-- The global `dblclick` listener in `app/page.tsx`: closes both
popups. -/
def globalDoubleClick (s : AppState) : AppState :=
  { s with wordPopup := none, selectionPopup := none }

/-- Mutual exclusion between the two popup kinds: at most one of them
is open. -/
def mutualExclusion (s : AppState) : Prop :=
  s.wordPopup = none ∨ s.selectionPopup = none

/-! ### Word boundary scanner

`handleRawTextClick` (`app/page.tsx`) and `handlePageClick`
(`components/PDFViewer.tsx`) expand a click offset left and right over
"word characters", with different character classes. -/

/-- An ASCII alphanumeric character (the "alphanumeric" part of both
regex character classes). -/
def isAsciiAlphanum (c : Char) : Bool :=
  ('A' ≤ c && c ≤ 'Z') || ('a' ≤ c && c ≤ 'z') || ('0' ≤ c && c ≤ '9')

/-- The raw-text word-character class, regex matching ASCII letters, digits, apostrophe and hyphen in
`handleRawTextClick`. -/
def isWordCharRaw (c : Char) : Bool :=
  ('A' ≤ c && c ≤ 'Z') || ('a' ≤ c && c ≤ 'z') || ('0' ≤ c && c ≤ '9')
    || c == '\x27' || c == '-'

/-- The PDF text-layer word-character class, regex
`[\w\-À-ÿ]` in `handlePageClick` (`\w` is
`[A-Za-z0-9_]`). -/
def isWordCharPdf (c : Char) : Bool :=
  ('A' ≤ c && c ≤ 'Z') || ('a' ≤ c && c ≤ 'z') || ('0' ≤ c && c ≤ '9')
    || c == '_' || c == '-' || ('À' ≤ c && c ≤ 'ÿ')

/-- `while (start > 0 && isWordChar(text[start - 1])) start--`.  Out of
range indices read as a space, which is never a word character (in the
browser the offset is always within the text node). -/
def scanLeft (chars : List Char) (wordChar : Char → Bool) : Nat → Nat
  | 0 => 0
  | start + 1 =>
      if wordChar (chars.getD start ' ') then scanLeft chars wordChar start
      else start + 1

/-- `while (end < text.length && isWordChar(text[end])) end++`, written
with explicit fuel so it is structural; `chars.length` steps always
suffice since the index grows towards the length. -/
def scanRightFuel (chars : List Char) (wordChar : Char → Bool) : Nat → Nat → Nat
  | 0, stop => stop
  | fuel + 1, stop =>
      if stop < chars.length ∧ wordChar (chars.getD stop ' ') = true then
        scanRightFuel chars wordChar fuel (stop + 1)
      else stop

/-- Right expansion of the scan from an offset. -/
def scanRight (chars : List Char) (wordChar : Char → Bool) (stop : Nat) : Nat :=
  scanRightFuel chars wordChar chars.length stop

/-- The word under the offset: `text.slice(start, end)` after both
expansions. -/
def scanWordAt (text : String) (offset : Nat) (wordChar : Char → Bool) : String :=
  let chars := text.data
  let start := scanLeft chars wordChar offset
  let stop := scanRight chars wordChar offset
  String.mk ((chars.drop start).take (stop - start))

/-- The raw-text scan of `handleRawTextClick`. -/
def rawScan (text : String) (offset : Nat) : String :=
  scanWordAt text offset isWordCharRaw

/-- The PDF text-layer scan of `handlePageClick`. -/
def pdfScan (text : String) (offset : Nat) : String :=
  scanWordAt text offset isWordCharPdf

/-! ### Line-context resolution (`handleRawTextClick`)

After the scan, `handleRawTextClick` locates the content of the clicked text node
content inside the raw OCR buffer with `indexOf` and extracts the line
around it bounded by the nearest newline on each side. -/

/-- JavaScript `hay.indexOf(need)`: index of the first occurrence of
`need` in `hay`, `none` standing for `-1`. -/
def jsIndexOf (hay need : List Char) : Option Nat :=
  (List.range (hay.length + 1)).find? (fun i => (hay.drop i).take need.length == need)

/-- JavaScript `hay.lastIndexOf` of a newline from `fromIdx`: greatest newline
position `≤ fromIdx`, `none` standing for `-1`. -/
def jsLastIndexOfNewline (hay : List Char) (fromIdx : Nat) : Option Nat :=
  (List.range (fromIdx + 1)).reverse.find? (fun j => hay.getD j ' ' == '\n')

/-- JavaScript `hay.indexOf` of a newline from `fromIdx`: least newline position
`≥ fromIdx`, `none` standing for `-1`. -/
def jsIndexOfNewlineFrom (hay : List Char) (fromIdx : Nat) : Option Nat :=
  (List.range hay.length).find? (fun j => decide (fromIdx ≤ j) && (hay.getD j ' ' == '\n'))

/-- The pure core of `handleRawTextClick`: given the clicked text
node content, the caret offset inside it, and the raw OCR buffer,
produce the clicked word and the line context handed to
`handleTokenClick`, or `none` when the scanned word is empty or
whitespace-only (silent no-op).  When the node content is not found in
the buffer the node content itself is the context. -/
def resolveRawClick (textContent : String) (offset : Nat) (rawText : String) :
    Option (String × String) :=
  let clickedWord := rawScan textContent offset
  if jsTrim clickedWord = "" then none
  else
    let full := rawText.data
    let lineText :=
      match jsIndexOf full textContent.data with
      | none => textContent
      | some absoluteIndex =>
        let sliceStart :=
          match jsLastIndexOfNewline full absoluteIndex with
          | none => 0
          | some j => j + 1
        let sliceStop :=
          match jsIndexOfNewlineFrom full (absoluteIndex + textContent.length) with
          | none => full.length
          | some j => j
        String.mk ((full.drop sliceStart).take (sliceStop - sliceStart))
    some (clickedWord, lineText)

/-! ### Popup geometry

`WordPopup.tsx` renders at `left = Math.min(x, window.innerWidth - 340)`
and `top = Math.min(y + 20, window.innerHeight - 300)` with CSS width
`w-80` (320 px).  The translation popup is mounted in `app/page.tsx` at
`initialX = Math.min(selectionPopup.x - 192, window.innerWidth - 400)`
and `initialY = selectionPopup.y + 10`, with initial layout width 384
(`TranslationPopup.tsx`). -/

/-- CSS width of the word popup (`w-80`). -/
def wordPopupWidthPx : Int := 320

/-- Final x of the word popup. -/
def wordPopupLeft (x innerWidth : Int) : Int := min x (innerWidth - 340)

/-- Final y of the word popup. -/
def wordPopupTop (y innerHeight : Int) : Int := min (y + 20) (innerHeight - 300)

/-- Initial layout width of the translation popup. -/
def translationPopupWidthPx : Int := 384

/-- Initial x of the translation popup, horizontally centered on the
selection anchor and clamped on the right. -/
def translationPopupInitialX (selX innerWidth : Int) : Int :=
  min (selX - 192) (innerWidth - 400)

/-! ### Drag and resize (`hooks/useDraggable.ts`, `hooks/useResizable.ts`) -/

/-- The translation popup layout rectangle (`LocalLayout`). -/
structure LocalLayout where
  x : Int
  y : Int
  width : Int
  height : Int
deriving DecidableEq, Repr

/-- One mouse-move update during a drag: the layout captured at drag
start moved by the raw pointer delta. -/
def dragMove (init : LocalLayout) (startX startY moveX moveY : Int) : LocalLayout :=
  { init with x := init.x + (moveX - startX), y := init.y + (moveY - startY) }

/-- One mouse-move update during a resize: the layout captured at
resize start with width and height grown by the raw pointer delta, each
floored at the minimum (200 × 150). -/
def resizeMove (init : LocalLayout) (startX startY moveX moveY : Int) : LocalLayout :=
  { init with width := max 200 (init.width + (moveX - startX)),
              height := max 150 (init.height + (moveY - startY)) }

/-! ## Helper lemmas -/

/-- Membership after a `Set.add`. -/
lemma mem_setAdd_iff (k k2 : String) (s : List String) :
    k ∈ setAdd k2 s ↔ k = k2 ∨ k ∈ s := by
  by_cases h : k2 ∈ s <;> simp only [setAdd, if_pos, if_neg, h, ite_true, ite_false,
    List.mem_cons]
  exact ⟨Or.inr, fun h2 => h2.elim (fun e => e ▸ h) id⟩

/-- Membership after a `Set.delete`. -/
lemma mem_setDelete_iff (k k2 : String) (s : List String) :
    k ∈ setDelete k2 s ↔ k ∈ s ∧ k ≠ k2 := by
  simp [setDelete, List.mem_filter, bne_iff_ne]

/-- A `Map.set` makes the key visible with its new value. -/
lemma lookup_mapSet_self {α : Type} (k : String) (v : α) (m : List (String × α)) :
    (mapSet k v m).lookup k = some v := by
  simp [mapSet, List.lookup]

/-- Strings with equal character lists are equal. -/
lemma string_data_inj {s t : String} (h : s.data = t.data) : s = t := by
  cases s; cases t; exact congrArg String.mk h

/-- The synchronous part of a token click either issues no fetch and
leaves the in-flight set unchanged, or issues one fetch for the explain
key of the click and marks exactly that key in flight. -/
lemma tokenClickStart_pending_cases (tok : Token) (sent : String) (x y : Int)
    (cfg : APIConfig) (s : AppState) :
    ((tokenClickStart tok sent x y cfg s).1.pendingRequests = s.pendingRequests ∧
      (tokenClickStart tok sent x y cfg s).2 = none) ∨
    ((tokenClickStart tok sent x y cfg s).1.pendingRequests
        = setAdd (explainCacheKey tok.text sent cfg) s.pendingRequests ∧
      (tokenClickStart tok sent x y cfg s).2 = some (explainCacheKey tok.text sent cfg)) := by
  simp only [tokenClickStart]
  split
  · exact Or.inl ⟨rfl, rfl⟩
  · split
    · exact Or.inl ⟨rfl, rfl⟩
    · exact Or.inr ⟨rfl, rfl⟩

/-- The synchronous part of a selection mouse-up either issues no fetch
and leaves the in-flight set unchanged, or issues one fetch for some
key and marks exactly that key in flight. -/
lemma mouseUpStart_pending_cases (sel : Option String) (x y : Int)
    (cfg : APIConfig) (s : AppState) :
    ((mouseUpStart sel x y cfg s).1.pendingRequests = s.pendingRequests ∧
      (mouseUpStart sel x y cfg s).2 = none) ∨
    (∃ key, (mouseUpStart sel x y cfg s).1.pendingRequests = setAdd key s.pendingRequests ∧
      (mouseUpStart sel x y cfg s).2 = some key) := by
  cases sel with
  | none => exact Or.inl ⟨rfl, rfl⟩
  | some raw =>
    simp only [mouseUpStart]
    split
    · exact Or.inl ⟨rfl, rfl⟩
    · split
      · exact Or.inl ⟨rfl, rfl⟩
      · split
        · exact Or.inl ⟨rfl, rfl⟩
        · exact Or.inr ⟨_, rfl, rfl⟩

/-! ## Claim theorems -/

/-- C10: during an in-progress drag of the translation popup each
pointer-move update changes only x and y — the width and height equal
their values captured at drag start — and during an in-progress resize
each update changes only width and height — the x and y equal their
values captured at resize start. -/
theorem drag_resize_frame (init : LocalLayout) (startX startY moveX moveY : Int) :
    (dragMove init startX startY moveX moveY).width = init.width ∧
    (dragMove init startX startY moveX moveY).height = init.height ∧
    (resizeMove init startX startY moveX moveY).x = init.x ∧
    (resizeMove init startX startY moveX moveY).y = init.y :=
  ⟨rfl, rfl, rfl, rfl⟩

/-- C6 as stated is false on the code: the word popup has width 320
(`w-80`) but clamps at `innerWidth - 340`, so in a 1000 px viewport an
anchor at 700 — which is past `1000 - 320` — lands at 660, not at
`1000 - 320 = 680`; moreover in a 300 px viewport the clamp yields a
negative x. -/
theorem popup_clamp_counterexample :
    (700 : Int) > 1000 - wordPopupWidthPx ∧
    wordPopupLeft 700 1000 ≠ 1000 - wordPopupWidthPx ∧
    wordPopupLeft 100 300 < 0 := by decide

/-- C6 (amended): the word popup clamps its x to
`min(anchor, innerWidth - 340)` where 340 is the popup width 320 plus a
20 px margin: an anchor past `innerWidth - 340` lands exactly at
`innerWidth - 340`, the popup right edge never passes
`innerWidth - 20`, and the clamped x is non-negative exactly when the
viewport is at least 340 px wide; the translation popup (width 384)
clamps to `min(selX - 192, innerWidth - 400)` analogously. -/
theorem popup_clamp (x innerWidth selX : Int) (hx : x > innerWidth - 340)
    (hs : selX - 192 > innerWidth - 400) :
    wordPopupLeft x innerWidth = innerWidth - 340 ∧
    wordPopupLeft x innerWidth + wordPopupWidthPx ≤ innerWidth - 20 ∧
    (0 ≤ wordPopupLeft x innerWidth ↔ 340 ≤ innerWidth) ∧
    translationPopupInitialX selX innerWidth = innerWidth - 400 ∧
    translationPopupInitialX selX innerWidth + translationPopupWidthPx ≤ innerWidth - 16 := by
  unfold wordPopupLeft translationPopupInitialX wordPopupWidthPx translationPopupWidthPx
  omega

/-- Witness for the amended C6 at anchor 700 and selection anchor 900
in a 1000 px viewport. -/
theorem popup_clamp_witness :
    ((700 : Int) > 1000 - 340 ∧ (900 : Int) - 192 > 1000 - 400) ∧
    (wordPopupLeft 700 1000 = 1000 - 340 ∧
     wordPopupLeft 700 1000 + wordPopupWidthPx ≤ 1000 - 20 ∧
     (0 ≤ wordPopupLeft 700 1000 ↔ 340 ≤ (1000 : Int)) ∧
     translationPopupInitialX 900 1000 = 1000 - 400 ∧
     translationPopupInitialX 900 1000 + translationPopupWidthPx ≤ 1000 - 16) :=
  ⟨by decide, popup_clamp 700 1000 900 (by decide) (by decide)⟩

/-- C7 as stated is false on the code: on the PDF DOM path the
apostrophe is not a word character (the regex there has no apostrophe,
while it does admit the underscore), so the PDF scan of
"don\x27t stop" at offset 2 yields "don", not "don\x27t"; the raw-text
path does treat the apostrophe as a word character. -/
theorem word_char_counterexample :
    isWordCharPdf '\x27' = false ∧ isWordCharRaw '\x27' = true ∧
    isWordCharPdf '_' = true ∧
    pdfScan "don\x27t stop" 2 = "don" ∧ pdfScan "don\x27t stop" 2 ≠ "don\x27t" := by
  decide

/-- C7 (amended): on the raw-text path a character is a word character
exactly when it is ASCII alphanumeric, a hyphen or an apostrophe; on
the PDF DOM path exactly when it is ASCII alphanumeric, an underscore,
a hyphen, or in the Latin-1 block U+00C0–U+00FF (accented letters plus
the multiplication and division signs) — the apostrophe is not a word
character there.  Consequently the raw scan of "don\x27t stop" at
offset 2 yields "don\x27t" and of "hello, world" at offset 3 yields
"hello", while the PDF scan of "don\x27t stop" at offset 2 yields
"don". -/
theorem word_char_classes (c : Char) :
    (isWordCharRaw c = true ↔ isAsciiAlphanum c = true ∨ c = '-' ∨ c = '\x27') ∧
    (isWordCharPdf c = true ↔ isAsciiAlphanum c = true ∨ c = '_' ∨ c = '-' ∨
        ('À' ≤ c ∧ c ≤ 'ÿ')) ∧
    rawScan "don\x27t stop" 2 = "don\x27t" ∧
    rawScan "hello, world" 3 = "hello" ∧
    pdfScan "don\x27t stop" 2 = "don" := by
  refine ⟨?_, ?_, by decide, by decide, by decide⟩
  · simp only [isWordCharRaw, isAsciiAlphanum, Bool.or_eq_true, Bool.and_eq_true,
      beq_iff_eq, decide_eq_true_eq]
    tauto
  · simp only [isWordCharPdf, isAsciiAlphanum, Bool.or_eq_true, Bool.and_eq_true,
      beq_iff_eq, decide_eq_true_eq]
    tauto

/-- C8 as stated is false on the code: the raw-text panes render the
whole buffer as a single text node (`<pre>{normalizedRawText}</pre>`),
so a click inside "two" on the second line hands the whole buffer to
the resolver as the clicked node content.  `indexOf` then locates that
content at position 0 and the newline bracketing runs around the whole
node content — there is no newline before it and none after it — so
the resolved context is the whole buffer, not "Line two text".  (For
this buffer the blank-line normalization of the pane is the
identity.) -/
theorem raw_line_context_counterexample :
    resolveRawClick "Line one text\nLine two text" 20 "Line one text\nLine two text" =
      some ("two", "Line one text\nLine two text") ∧
    ("Line one text\nLine two text" : String) ≠ "Line two text" := by decide

/-- C8 (amended): in the raw OCR buffer "Line one text\nLine two
text", a click inside the word "two" on the second line resolves the
word "two", and the context is the full line bounded by the nearest
newlines around the clicked text node content as located in the buffer
by substring search — but because the pane renders the buffer as one
text node, that content is the whole buffer and the resolved context
is the whole buffer "Line one text\nLine two text" rather than "Line
two text".  The caret offsets inside "two" are 19 through 22. -/
theorem raw_line_context_whole_buffer (offset : Nat)
    (h1 : 19 ≤ offset) (h2 : offset ≤ 22) :
    resolveRawClick "Line one text\nLine two text" offset
        "Line one text\nLine two text" =
      some ("two", "Line one text\nLine two text") := by
  have h : offset = 19 ∨ offset = 20 ∨ offset = 21 ∨ offset = 22 := by omega
  rcases h with rfl | rfl | rfl | rfl <;> decide

/-- Witness for the amended C8 at caret offset 20. -/
theorem raw_line_context_whole_buffer_witness :
    (19 ≤ 20 ∧ 20 ≤ 22) ∧
    resolveRawClick "Line one text\nLine two text" 20
        "Line one text\nLine two text" =
      some ("two", "Line one text\nLine two text") :=
  ⟨by decide, raw_line_context_whole_buffer 20 (by decide) (by decide)⟩

/-- C2 as stated is false on the code: starting from the empty state, a
token click issues an explain fetch, then a selection mouse-up closes
the word popup and opens the pending translation popup, and then the
arrival of the explain response sets the word popup unconditionally —
leaving both popup kinds open at once. -/
theorem popup_mutex_counterexample :
    ¬ mutualExclusion
        (explainComplete (explainCacheKey "alpha" "ctx one" .empty) 1 2
          (.success ⟨"alpha", "m", "e", 90⟩)
          (mouseUpStart (some "hello world") 5 6 .empty
            (tokenClickStart ⟨"t1", "alpha", true⟩ "ctx one" 1 2 .empty
              ⟨[], [], [], none, none⟩).1).1) := by
  unfold mutualExclusion
  decide

/-- C2 (amended): the synchronous opening operations do enforce mutual
exclusion — a token click always leaves the translation popup closed, a
selection mouse-up either changes nothing or leaves the word popup
closed, a translate response never opens a popup (it preserves mutual
exclusion), and the global double-click closes both — but an explain
success response reopens the word popup unconditionally, so mutual
exclusion can be violated when it arrives while a translation popup is
open. -/
theorem popup_mutex_ops :
    (∀ (tok : Token) (sent : String) (x y : Int) (cfg : APIConfig) (s : AppState),
        (tokenClickStart tok sent x y cfg s).1.selectionPopup = none) ∧
    (∀ (sel : Option String) (x y : Int) (cfg : APIConfig) (s : AppState),
        (mouseUpStart sel x y cfg s).1 = s ∨
        (mouseUpStart sel x y cfg s).1.wordPopup = none) ∧
    (∀ (key : String) (outcome : TranslateOutcome) (s : AppState),
        mutualExclusion s → mutualExclusion (translateComplete key outcome s)) ∧
    (∀ s : AppState, mutualExclusion (globalDoubleClick s)) := by
  refine ⟨?_, ?_, ?_, ?_⟩
  · intro tok sent x y cfg s
    simp only [tokenClickStart]
    split
    · rfl
    · split <;> rfl
  · intro sel x y cfg s
    cases sel with
    | none => exact Or.inl rfl
    | some raw =>
      simp only [mouseUpStart]
      split
      · exact Or.inl rfl
      · split
        · exact Or.inr rfl
        · split <;> exact Or.inr rfl
  · intro key outcome s h
    cases outcome with
    | success tr =>
      cases h with
      | inl h => exact Or.inl h
      | inr h => exact Or.inr (by simp [translateComplete, h])
    | failure msg =>
      cases h with
      | inl h => exact Or.inl h
      | inr h => exact Or.inr (by simp [translateComplete, h])
  · intro s
    exact Or.inl rfl

/-- Witness for the amended C2: a translate response on the empty state
preserves mutual exclusion. -/
theorem popup_mutex_ops_witness :
    mutualExclusion (⟨[], [], [], none, none⟩ : AppState) ∧
    mutualExclusion (translateComplete "k" (.success "t") ⟨[], [], [], none, none⟩) :=
  ⟨Or.inl rfl, popup_mutex_ops.2.2.1 "k" (.success "t") _ (Or.inl rfl)⟩

/-- C3 as stated is false on the code: with two token clicks in flight
(first at coordinates (1, 2) for "alpha", then at (3, 4) for "beta"),
the arrival of the first response overwrites the pending word popup
belonging to the second lookup — the popup shows the first lookup at
the first coordinates while the second key is still in flight. -/
theorem stale_response_counterexample :
    ((tokenClickStart ⟨"t2", "beta", true⟩ "ctx two" 3 4 .empty
        (tokenClickStart ⟨"t1", "alpha", true⟩ "ctx one" 1 2 .empty
          ⟨[], [], [], none, none⟩).1).1.wordPopup = some ⟨3, 4, none⟩) ∧
    ((explainComplete (explainCacheKey "alpha" "ctx one" .empty) 1 2
        (.success ⟨"alpha", "m", "e", 90⟩)
        (tokenClickStart ⟨"t2", "beta", true⟩ "ctx two" 3 4 .empty
          (tokenClickStart ⟨"t1", "alpha", true⟩ "ctx one" 1 2 .empty
            ⟨[], [], [], none, none⟩).1).1).wordPopup
      = some ⟨1, 2, some ⟨"alpha", "m", "e", 90⟩⟩) ∧
    explainCacheKey "beta" "ctx two" .empty ∈
      (explainComplete (explainCacheKey "alpha" "ctx one" .empty) 1 2
        (.success ⟨"alpha", "m", "e", 90⟩)
        (tokenClickStart ⟨"t2", "beta", true⟩ "ctx two" 3 4 .empty
          (tokenClickStart ⟨"t1", "alpha", true⟩ "ctx one" 1 2 .empty
            ⟨[], [], [], none, none⟩).1).1).pendingRequests := by decide

/-- C3 (amended): the last response to arrive wins, not the most recent
lookup — an explain success response always sets the word popup to its
own originating coordinates and data, clobbering any newer pending
popup; a translate success response overwrites the translation text of
whatever translation popup is open (even one belonging to a newer
selection); only when the translation popup is closed does a translate
response degrade to a pure cache update without reopening anything. -/
theorem last_response_wins :
    (∀ (key : String) (x y : Int) (d : ExplainResult) (s : AppState),
        (explainComplete key x y (.success d) s).wordPopup = some ⟨x, y, some d⟩) ∧
    (∀ (key tr : String) (s : AppState), s.selectionPopup = none →
        (translateComplete key (.success tr) s).selectionPopup = none ∧
        (translateComplete key (.success tr) s).translateCache.lookup key = some tr) ∧
    (∀ (key tr : String) (s : AppState) (p : SelectionPopupState),
        s.selectionPopup = some p →
        (translateComplete key (.success tr) s).selectionPopup
          = some { p with translation := tr }) := by
  refine ⟨fun key x y d s => rfl, ?_, ?_⟩
  · intro key tr s h
    exact ⟨by simp [translateComplete, h], by simp [translateComplete, lookup_mapSet_self]⟩
  · intro key tr s p h
    simp [translateComplete, h]

/-- Witness for the amended C3: a translate response arriving with the
translation popup closed keeps it closed and fills the cache. -/
theorem last_response_wins_witness :
    (⟨[], [], [], none, none⟩ : AppState).selectionPopup = none ∧
    ((translateComplete "k" (.success "t") ⟨[], [], [], none, none⟩).selectionPopup = none ∧
     (translateComplete "k" (.success "t")
        ⟨[], [], [], none, none⟩).translateCache.lookup "k" = some "t") :=
  ⟨rfl, last_response_wins.2.1 "k" "t" _ rfl⟩

/-- C9 as stated is false on the code: when the explain key is already
in flight the invocation does issue no fetch, but the mutual-exclusion
step has already closed the translation popup before the in-flight
check, so the popup states are not identical before and after. -/
theorem inflight_noop_counterexample :
    (tokenClickStart ⟨"t", "w", true⟩ "s" 0 0 .empty
        ⟨[], [], [explainCacheKey "w" "s" .empty], none, some ⟨5, 6, "hi", "tr"⟩⟩).2
      = none ∧
    (tokenClickStart ⟨"t", "w", true⟩ "s" 0 0 .empty
        ⟨[], [], [explainCacheKey "w" "s" .empty], none, some ⟨5, 6, "hi", "tr"⟩⟩).1.selectionPopup
      ≠ (⟨[], [], [explainCacheKey "w" "s" .empty], none,
          some ⟨5, 6, "hi", "tr"⟩⟩ : AppState).selectionPopup := by decide

/-- C9 (amended): an invocation whose cache key is already in flight
issues no backend call and leaves the result caches, the in-flight set
and its own popup kind unchanged — but the other popup kind has already
been closed by the mutual-exclusion step that runs before the in-flight
check (a token click closes the translation popup, a mouse-up closes
the word popup). -/
theorem inflight_dedup_frame :
    (∀ (tok : Token) (sent : String) (x y : Int) (cfg : APIConfig) (s : AppState),
        s.explainCache.lookup (explainCacheKey tok.text sent cfg) = none →
        explainCacheKey tok.text sent cfg ∈ s.pendingRequests →
        tokenClickStart tok sent x y cfg s = ({ s with selectionPopup := none }, none)) ∧
    (∀ (raw : String) (x y : Int) (cfg : APIConfig) (s : AppState),
        2 ≤ (jsTrim raw).length →
        containsAsciiLetter (jsTrim raw) = true →
        s.translateCache.lookup (translateCacheKey (jsTrim raw) cfg) = none →
        translateCacheKey (jsTrim raw) cfg ∈ s.pendingRequests →
        mouseUpStart (some raw) x y cfg s = ({ s with wordPopup := none }, none)) := by
  constructor
  · intro tok sent x y cfg s hc hp
    simp only [tokenClickStart, hc]
    simp [hp]
  · intro raw x y cfg s hlen halpha hc hp
    have hguard : ¬((jsTrim raw).length < 2 ∨ containsAsciiLetter (jsTrim raw) = false) := by
      rintro (hb | hb)
      · omega
      · rw [halpha] at hb
        exact absurd hb (by decide)
    simp only [mouseUpStart, if_neg hguard, hc]
    simp [hp]

/-- Witness for the amended C9: a token click on the key already in
flight only closes the translation popup. -/
theorem inflight_dedup_frame_witness :
    ((⟨[], [], [explainCacheKey "w" "s" .empty], none,
        some ⟨5, 6, "hi", "tr"⟩⟩ : AppState).explainCache.lookup
          (explainCacheKey "w" "s" .empty) = none ∧
     explainCacheKey "w" "s" .empty ∈
       (⟨[], [], [explainCacheKey "w" "s" .empty], none,
          some ⟨5, 6, "hi", "tr"⟩⟩ : AppState).pendingRequests) ∧
    tokenClickStart ⟨"t", "w", true⟩ "s" 0 0 .empty
        ⟨[], [], [explainCacheKey "w" "s" .empty], none, some ⟨5, 6, "hi", "tr"⟩⟩
      = ({ (⟨[], [], [explainCacheKey "w" "s" .empty], none,
             some ⟨5, 6, "hi", "tr"⟩⟩ : AppState) with selectionPopup := none }, none) :=
  ⟨⟨by decide, by decide⟩,
    inflight_dedup_frame.1 ⟨"t", "w", true⟩ "s" 0 0 .empty _ (by decide) (by decide)⟩

/-- C1: invoking the explain lookup twice in sequence with identical
word, sentence context and configuration — starting from a state where
the key is neither cached nor in flight — issues exactly one backend
request: the first call performs the fetch and stores the response
under the cache key, the second call issues no fetch and shows the
cached response immediately. -/
theorem explain_cache_idempotent (tok : Token) (sentenceText : String)
    (x1 y1 x2 y2 : Int) (cfg : APIConfig) (d : ExplainResult)
    (outcome2 : FetchOutcome) (s : AppState)
    (hc : s.explainCache.lookup (explainCacheKey tok.text sentenceText cfg) = none)
    (hp : explainCacheKey tok.text sentenceText cfg ∉ s.pendingRequests) :
    (handleTokenClick tok sentenceText x1 y1 cfg (.success d) s).2 = 1 ∧
    (handleTokenClick tok sentenceText x1 y1 cfg (.success d) s).1.explainCache.lookup
        (explainCacheKey tok.text sentenceText cfg) = some d ∧
    (handleTokenClick tok sentenceText x2 y2 cfg outcome2
        (handleTokenClick tok sentenceText x1 y1 cfg (.success d) s).1).2 = 0 ∧
    (handleTokenClick tok sentenceText x2 y2 cfg outcome2
        (handleTokenClick tok sentenceText x1 y1 cfg (.success d) s).1).1.wordPopup
      = some ⟨x2, y2, some d⟩ := by
  have hstart : tokenClickStart tok sentenceText x1 y1 cfg s
      = ({ s with selectionPopup := none,
                  pendingRequests :=
                    setAdd (explainCacheKey tok.text sentenceText cfg) s.pendingRequests,
                  wordPopup := some ⟨x1, y1, none⟩ },
         some (explainCacheKey tok.text sentenceText cfg)) := by
    simp only [tokenClickStart, hc]
    simp [hp]
  have h1 : handleTokenClick tok sentenceText x1 y1 cfg (.success d) s
      = (explainComplete (explainCacheKey tok.text sentenceText cfg) x1 y1 (.success d)
          { s with selectionPopup := none,
                   pendingRequests :=
                     setAdd (explainCacheKey tok.text sentenceText cfg) s.pendingRequests,
                   wordPopup := some ⟨x1, y1, none⟩ }, 1) := by
    simp only [handleTokenClick, hstart]
  rw [h1]
  refine ⟨rfl, ?_, ?_, ?_⟩
  · simp [explainComplete, lookup_mapSet_self]
  · simp only [handleTokenClick, tokenClickStart, explainComplete]
    simp [lookup_mapSet_self]
  · simp only [handleTokenClick, tokenClickStart, explainComplete]
    simp [lookup_mapSet_self]

/-- Witness for C1 on the empty state. -/
theorem explain_cache_idempotent_witness :
    ((⟨[], [], [], none, none⟩ : AppState).explainCache.lookup
        (explainCacheKey "run" "I run fast" .empty) = none ∧
     explainCacheKey "run" "I run fast" .empty ∉
       (⟨[], [], [], none, none⟩ : AppState).pendingRequests) ∧
    ((handleTokenClick ⟨"t", "run", true⟩ "I run fast" 1 2 .empty
        (.success ⟨"run", "m", "e", 90⟩) ⟨[], [], [], none, none⟩).2 = 1 ∧
     (handleTokenClick ⟨"t", "run", true⟩ "I run fast" 1 2 .empty
        (.success ⟨"run", "m", "e", 90⟩) ⟨[], [], [], none, none⟩).1.explainCache.lookup
          (explainCacheKey "run" "I run fast" .empty) = some ⟨"run", "m", "e", 90⟩ ∧
     (handleTokenClick ⟨"t", "run", true⟩ "I run fast" 3 4 .empty .failure
        (handleTokenClick ⟨"t", "run", true⟩ "I run fast" 1 2 .empty
          (.success ⟨"run", "m", "e", 90⟩) ⟨[], [], [], none, none⟩).1).2 = 0 ∧
     (handleTokenClick ⟨"t", "run", true⟩ "I run fast" 3 4 .empty .failure
        (handleTokenClick ⟨"t", "run", true⟩ "I run fast" 1 2 .empty
          (.success ⟨"run", "m", "e", 90⟩) ⟨[], [], [], none, none⟩).1).1.wordPopup
       = some ⟨3, 4, some ⟨"run", "m", "e", 90⟩⟩) :=
  ⟨⟨by decide, by decide⟩,
    explain_cache_idempotent ⟨"t", "run", true⟩ "I run fast" 1 2 3 4 .empty
      ⟨"run", "m", "e", 90⟩ .failure ⟨[], [], [], none, none⟩ (by decide) (by decide)⟩

/-- C4: any lookup invocation run to completion — explain or translate,
success or failure — leaves no new key in the in-flight set: a key it
added for its fetch is removed again by the finally step, so no key
ever becomes permanently un-retriable. -/
theorem inflight_always_released :
    (∀ (tok : Token) (sent : String) (x y : Int) (cfg : APIConfig)
        (outcome : FetchOutcome) (s : AppState) (k : String),
        k ∉ s.pendingRequests →
        k ∉ (handleTokenClick tok sent x y cfg outcome s).1.pendingRequests) ∧
    (∀ (sel : Option String) (x y : Int) (cfg : APIConfig)
        (outcome : TranslateOutcome) (s : AppState) (k : String),
        k ∉ s.pendingRequests →
        k ∉ (handleMouseUp sel x y cfg outcome s).1.pendingRequests) := by
  constructor
  · intro tok sent x y cfg outcome s k hk
    rcases tokenClickStart_pending_cases tok sent x y cfg s with ⟨hpend, hsnd⟩ | ⟨hpend, hsnd⟩
    · simp only [handleTokenClick, hsnd]
      rw [hpend]
      exact hk
    · simp only [handleTokenClick, hsnd]
      cases outcome <;>
        simp only [explainComplete] <;>
        rw [mem_setDelete_iff, hpend] <;>
        simp only [mem_setAdd_iff] <;>
        tauto
  · intro sel x y cfg outcome s k hk
    rcases mouseUpStart_pending_cases sel x y cfg s with ⟨hpend, hsnd⟩ | ⟨key, hpend, hsnd⟩
    · simp only [handleMouseUp, hsnd]
      rw [hpend]
      exact hk
    · simp only [handleMouseUp, hsnd]
      cases outcome <;>
        simp only [translateComplete] <;>
        rw [mem_setDelete_iff, hpend] <;>
        simp only [mem_setAdd_iff] <;>
        tauto

/-- Witness for C4: a failing explain lookup on the empty state leaves
the in-flight set free of its key. -/
theorem inflight_always_released_witness :
    "k0" ∉ (⟨[], [], [], none, none⟩ : AppState).pendingRequests ∧
    "k0" ∉ (handleTokenClick ⟨"t", "w", true⟩ "s" 0 0 .empty .failure
        ⟨[], [], [], none, none⟩).1.pendingRequests :=
  ⟨by decide,
    inflight_always_released.1 ⟨"t", "w", true⟩ "s" 0 0 .empty .failure _ "k0" (by decide)⟩

/-! ## Injectivity of the serialized configuration (towards C5)

A string value followed by its closing quote is uniquely decodable from
the serialized form: escaped output never contains a bare quote at a
value boundary, so the first unescaped quote closes the value. -/

/-- Splitting lemma: equal serializations of an escaped value followed
by a closing quote force equal values and equal remainders. -/
lemma jsonEsc_append_quote_inj :
    ∀ (a b r1 r2 : List Char),
      jsonEsc a ++ '"' :: r1 = jsonEsc b ++ '"' :: r2 → a = b ∧ r1 = r2 := by
  intro a
  induction a with
  | nil =>
    intro b r1 r2 h
    cases b with
    | nil =>
      simp only [jsonEsc, List.nil_append, List.cons.injEq] at h
      exact ⟨rfl, h.2⟩
    | cons d bs =>
      by_cases hd : d = '"' ∨ d = '\\'
      · simp only [jsonEsc, if_pos hd, List.nil_append, List.cons_append,
          List.cons.injEq] at h
        exact absurd h.1 (by decide)
      · simp only [jsonEsc, if_neg hd, List.nil_append, List.cons_append,
          List.cons.injEq] at h
        exact absurd h.1 (fun he => hd (Or.inl he.symm))
  | cons c as ih =>
    intro b r1 r2 h
    cases b with
    | nil =>
      by_cases hc : c = '"' ∨ c = '\\'
      · simp only [jsonEsc, if_pos hc, List.nil_append, List.cons_append,
          List.cons.injEq] at h
        exact absurd h.1 (by decide)
      · simp only [jsonEsc, if_neg hc, List.nil_append, List.cons_append,
          List.cons.injEq] at h
        exact absurd h.1 (fun he => hc (Or.inl he))
    | cons d bs =>
      by_cases hc : c = '"' ∨ c = '\\' <;> by_cases hd : d = '"' ∨ d = '\\'
      · simp only [jsonEsc, if_pos hc, if_pos hd, List.cons_append,
          List.cons.injEq, true_and] at h
        obtain ⟨hcd, htail⟩ := h
        obtain ⟨hab, hr⟩ := ih bs r1 r2 htail
        exact ⟨by rw [hcd, hab], hr⟩
      · simp only [jsonEsc, if_pos hc, if_neg hd, List.cons_append,
          List.cons.injEq] at h
        exact absurd h.1 (fun he => hd (Or.inr he.symm))
      · simp only [jsonEsc, if_neg hc, if_pos hd, List.cons_append,
          List.cons.injEq] at h
        exact absurd h.1 (fun he => hc (Or.inr he))
      · simp only [jsonEsc, if_neg hc, if_neg hd, List.cons_append,
          List.cons.injEq] at h
        obtain ⟨hcd, htail⟩ := h
        obtain ⟨hab, hr⟩ := ih bs r1 r2 htail
        exact ⟨by rw [hcd, hab], hr⟩

/-- The escaping itself is injective. -/
lemma jsonEsc_inj {a b : List Char} (h : jsonEsc a = jsonEsc b) : a = b := by
  have h2 : jsonEsc a ++ '"' :: [] = jsonEsc b ++ '"' :: [] := by rw [h]
  exact (jsonEsc_append_quote_inj a b [] [] h2).1

/-- The gemini leading literal is the OpenAI-compatible leading literal
followed by the escaped provider value `gemini`, its closing quote, and
the gemini api-key field name. -/
lemma geminiLead_decomp :
    geminiLead
      = openaiLead ++ (jsonEsc ("gemini").data ++ '"' :: (",\"gemini_api_key\":\"").data) := by
  decide

/-- `JSON.stringify` of the effective configuration is injective:
distinct effective configurations serialize to distinct character
lists. -/
lemma serAPIConfig_inj : ∀ c1 c2 : APIConfig, serAPIConfig c1 = serAPIConfig c2 → c1 = c2 := by
  have hempty1 : emptyConfigChars = '\x7b' :: '\x7d' :: [] := by decide
  have hopen : openaiLead = '\x7b' :: '"' :: ("ai_provider\":\"").data := by decide
  have hgem : geminiLead = '\x7b' :: '"' :: ("ai_provider\":\"gemini\",\"gemini_api_key\":\"").data := by
    decide
  have hsep1 : openaiSep1 = ',' :: '"' :: 'a' :: ("i_api_key\":\"").data := by decide
  have hgsep1 : (",\"gemini_api_key\":\"").data
      = ',' :: '"' :: 'g' :: ("emini_api_key\":\"").data := by decide
  intro c1 c2 h
  cases c1 with
  | empty =>
    cases c2 with
    | empty => rfl
    | openaiCompat p k u m =>
      simp only [serAPIConfig] at h
      rw [hempty1, hopen] at h
      simp only [List.cons_append, List.cons.injEq] at h
      exact absurd h.2.1 (by decide)
    | gemini k m =>
      simp only [serAPIConfig] at h
      rw [hempty1, hgem] at h
      simp only [List.cons_append, List.cons.injEq] at h
      exact absurd h.2.1 (by decide)
  | openaiCompat p1 k1 u1 m1 =>
    cases c2 with
    | empty =>
      simp only [serAPIConfig] at h
      rw [hempty1, hopen] at h
      simp only [List.cons_append, List.cons.injEq] at h
      exact absurd h.2.1 (by decide)
    | openaiCompat p2 k2 u2 m2 =>
      simp only [serAPIConfig] at h
      have h1 := List.append_cancel_left h
      obtain ⟨hp, h2⟩ := jsonEsc_append_quote_inj _ _ _ _ h1
      have h3 := List.append_cancel_left h2
      obtain ⟨hk, h4⟩ := jsonEsc_append_quote_inj _ _ _ _ h3
      have h5 := List.append_cancel_left h4
      obtain ⟨hu, h6⟩ := jsonEsc_append_quote_inj _ _ _ _ h5
      have h7 := List.append_cancel_left h6
      obtain ⟨hm, -⟩ := jsonEsc_append_quote_inj _ _ _ _ h7
      rw [string_data_inj hp, string_data_inj hk, string_data_inj hu, string_data_inj hm]
    | gemini k2 m2 =>
      simp only [serAPIConfig] at h
      rw [geminiLead_decomp, List.append_assoc, List.append_assoc, List.cons_append] at h
      have h1 := List.append_cancel_left h
      obtain ⟨hp, h2⟩ := jsonEsc_append_quote_inj _ _ _ _ h1
      rw [hsep1, hgsep1] at h2
      simp only [List.cons_append, List.cons.injEq] at h2
      exact absurd h2.2.2.1 (by decide)
  | gemini k1 m1 =>
    cases c2 with
    | empty =>
      simp only [serAPIConfig] at h
      rw [hempty1, hgem] at h
      simp only [List.cons_append, List.cons.injEq] at h
      exact absurd h.2.1 (by decide)
    | openaiCompat p2 k2 u2 m2 =>
      simp only [serAPIConfig] at h
      rw [geminiLead_decomp, List.append_assoc, List.append_assoc, List.cons_append] at h
      have h1 := (List.append_cancel_left h).symm
      obtain ⟨hp, h2⟩ := jsonEsc_append_quote_inj _ _ _ _ h1
      rw [hsep1, hgsep1] at h2
      simp only [List.cons_append, List.cons.injEq] at h2
      exact absurd h2.2.2.1 (by decide)
    | gemini k2 m2 =>
      simp only [serAPIConfig] at h
      have h1 := List.append_cancel_left h
      obtain ⟨hk, h2⟩ := jsonEsc_append_quote_inj _ _ _ _ h1
      have h3 := List.append_cancel_left h2
      obtain ⟨hm, -⟩ := jsonEsc_append_quote_inj _ _ _ _ h3
      rw [string_data_inj hk, string_data_inj hm]

/-- C5: for a fixed word and context, two distinct effective AI
configurations always produce distinct explain cache keys, so lookups
under different configurations never share a cache entry. -/
theorem explain_key_config_sensitive (w c : String) (cfgA cfgB : APIConfig)
    (hne : cfgA ≠ cfgB) :
    explainCacheKey w c cfgA ≠ explainCacheKey w c cfgB := by
  intro h
  apply hne
  apply serAPIConfig_inj
  have hd := congrArg String.data h
  simp only [explainCacheKey, jsonStringifyConfig, String.data_append] at hd
  exact List.append_cancel_left hd

/-- Witness for C5: the empty configuration and a gemini configuration
give different keys for the same word and context. -/
theorem explain_key_config_sensitive_witness :
    APIConfig.empty ≠ APIConfig.gemini "gk" "gm" ∧
    explainCacheKey "run" "I run fast" .empty
      ≠ explainCacheKey "run" "I run fast" (.gemini "gk" "gm") :=
  ⟨by decide, explain_key_config_sensitive "run" "I run fast" _ _ (by decide)⟩

end EnglishReader
